import Mathlib

/-!
Verification of the Player component of biru-ka2/biy-game
(src/components/player.py), shallowly embedded over an arbitrary linear
ordered field so that the exact-arithmetic reading of the float code can be
instantiated at the rationals (for executable checks) and at the reals (for
the trigonometric launch computation).
-/

set_option maxHeartbeats 1000000

namespace BiyGame

/-- Modelled from the spec: the PlayerState enum lives in
src/utility/player_state.py, which is not under src/. The spec describes a
four-value mode flag Idle, Aiming, ChargingPower, Launched; the source refers
to the members IDLE, AIMING, POWER and SHOOTING, so those names are kept. -/
inductive PlayerState where
  | IDLE
  | AIMING
  | POWER
  | SHOOTING
deriving DecidableEq, Repr

/-- The keys the event handler distinguishes: space, left, right, up, down;
every other key falls through all branches of the elif chain, so it is
represented by a single constructor. -/
inductive Key where
  | space
  | left
  | right
  | up
  | down
  | other
deriving DecidableEq, Repr

/-- A pygame event as seen by handle_event: either a KEYDOWN carrying a key,
or any event of another type (the handler returns 0 at once for those). -/
inductive Event where
  | keydown (key : Key)
  | nonKeydown
deriving DecidableEq, Repr

/-- The slice of the Game session object that the player touches:
power_size, the shooting flag, and the screen extent. -/
structure Game (α : Type) where
  power_size : ℤ
  shooting : Bool
  screen_width : α
  screen_height : α
deriving DecidableEq, Repr

/-- The Player state: mode, position, integer direction in degrees, the two
speed components, the bounding-rect position biy, and the recorded
shooting_start_position (launch origin). -/
structure Player (α : Type) where
  state : PlayerState
  pos_x : α
  pos_y : α
  direction : ℤ
  speed_x : α
  speed_y : α
  biy_x : α
  biy_y : α
  shooting_start_x : α
  shooting_start_y : α
deriving DecidableEq, Repr

variable {α : Type} [LinearOrderedField α]

/-- The speedDx table of update_speed: True maps to -0.05, False to 0.05
(0.05 read exactly as 1/20). -/
def speedDx (b : Bool) : α :=
  if b then -(1 / 20) else 1 / 20

/-- Player.update_speed: add speedDx of the sign test to the speed; if the
sign test changes, the step crossed zero and the result snaps to 0. -/
def update_speed (speed : α) : α :=
  let x : Bool := decide (0 < speed)
  let speed1 := speed + speedDx (decide (0 < speed))
  let y : Bool := decide (0 < speed1)
  if x ≠ y then 0 else speed1

/-- Player.center: the point (pos_x + width // 2, pos_y + height // 2),
where width // 2 is integer floor division of the configured sprite size. -/
def center (w h : ℕ) (st : Player α) : α × α :=
  (st.pos_x + (w / 2 : ℕ), st.pos_y + (h / 2 : ℕ))

/-- Modelled from the spec: Game.set_power_size belongs to the session class,
which is not under src/. The spec states that chargePower is an integer
clamped to [0, maxPower] and that the clamp is the session responsibility,
so the setter clamps its argument into that interval. -/
def set_power_size (max_power_size p : ℤ) (g : Game α) : Game α :=
  { g with power_size := max 0 (min p max_power_size) }

/-- Player.handle_event. Non-KEYDOWN events return 0 untouched. Space sets
the SHOOTING state, records the launch origin, computes the speed from the
direction and power via the supplied degree cosine and sine, and returns 1.
Left and right set AIMING and shift the direction by 5. Up and down set
POWER and, guarded by the bounds tests of the source, ask the session to
move power_size by 100. All non-space paths return 0. -/
def handle_event (cosd sind : ℤ → α) (max_power_size : ℤ) (w h : ℕ)
    (st : Player α) (g : Game α) (ev : Event) : Player α × Game α × ℤ :=
  match ev with
  | Event.nonKeydown => (st, g, 0)
  | Event.keydown key =>
    if key = Key.space then
      let c := center w h st
      ({ st with
          state := PlayerState.SHOOTING
          shooting_start_x := c.1
          shooting_start_y := c.2
          speed_x := 1 / 100 * (g.power_size : α) * cosd st.direction
          speed_y := 1 / 100 * (g.power_size : α) * sind st.direction }, g, 1)
    else if key = Key.left ∨ key = Key.right then
      let st1 := { st with state := PlayerState.AIMING }
      let st2 :=
        if key = Key.right then { st1 with direction := st1.direction + 5 }
        else if key = Key.left then { st1 with direction := st1.direction - 5 }
        else st1
      (st2, g, 0)
    else if key = Key.up ∨ key = Key.down then
      let st1 := { st with state := PlayerState.POWER }
      let g1 :=
        if key = Key.up ∧ g.power_size < max_power_size then
          set_power_size max_power_size (g.power_size + 100) g
        else if key = Key.down ∧ 0 < g.power_size then
          set_power_size max_power_size (g.power_size - 100) g
        else g
      (st1, g1, 0)
    else (st, g, 0)

/-- The wall test and reflection for the x axis, exactly as in update: if the
integrated x position is at or below the sprite width, or at or above the
screen width, the x speed is negated, otherwise kept. -/
def bounce_x (w : ℕ) (g : Game α) (px vx : α) : α :=
  if px ≤ (w : α) ∨ px ≥ g.screen_width then -vx else vx

/-- The wall test and reflection for the y axis of update. -/
def bounce_y (h : ℕ) (g : Game α) (py vy : α) : α :=
  if py ≤ (h : α) ∨ py ≥ g.screen_height then -vy else vy

/-- Player.update. The repeat-trigger block is driven by the pygame event
queue and the held-key query; those externals enter as the number of queued
USEREVENT entries and the two held flags, with left tested before right as
in the source. Then: integrate position, sync biy, clear the session
shooting flag when the incoming speed is exactly (0, 0), reflect each speed
component at the walls, decay each component, and drop SHOOTING to IDLE when
both decayed components are exactly 0. -/
def update (w h : ℕ) (repeat_ticks : ℕ) (left_held right_held : Bool)
    (st : Player α) (g : Game α) : Player α × Game α :=
  let dir1 :=
    if 0 < repeat_ticks then
      if left_held then st.direction - 5 * (repeat_ticks : ℤ)
      else if right_held then st.direction + 5 * (repeat_ticks : ℤ)
      else st.direction
    else st.direction
  let px := st.pos_x + st.speed_x
  let py := st.pos_y + st.speed_y
  let g1 := if st.speed_x = 0 ∧ st.speed_y = 0 then { g with shooting := false } else g
  let sx := bounce_x w g px st.speed_x
  let sy := bounce_y h g py st.speed_y
  let sx1 := update_speed sx
  let sy1 := update_speed sy
  let state1 :=
    if st.state = PlayerState.SHOOTING ∧ sx1 = 0 ∧ sy1 = 0 then PlayerState.IDLE
    else st.state
  ({ st with
      direction := dir1
      pos_x := px
      pos_y := py
      biy_x := px
      biy_y := py
      speed_x := sx1
      speed_y := sy1
      state := state1 }, g1)

/-- Player.stop: force both speed components to 0. -/
def stop (st : Player α) : Player α :=
  { st with speed_x := 0, speed_y := 0 }

/-- Player.draw restricted to the state it mutates: the stored position is
overwritten with position times the scale factor plus the translation
vector (the aim line, power bar and blit touch no controller state). -/
def draw (st : Player α) (scale_factor : α) (translation_vector : α × α) : Player α :=
  { st with
      pos_x := st.pos_x * scale_factor + translation_vector.1
      pos_y := st.pos_y * scale_factor + translation_vector.2 }

/-- Closed form of the decay rule: subtract 1/20 above 1/20, add 1/20 below
-(1/20), snap to 0 on the middle band. -/
lemma update_speed_eq (s : α) :
    update_speed s =
      if 1 / 20 < s then s - 1 / 20 else if s < -(1 / 20) then s + 1 / 20 else 0 := by
  unfold update_speed speedDx
  by_cases h : (0 : α) < s
  · by_cases h2 : (0 : α) < s + -(1 / 20)
    · simp [h, h2]
      split_ifs <;> linarith
    · simp [h, h2]
      split_ifs <;> linarith
  · by_cases h2 : (0 : α) < s + 1 / 20
    · simp [h, h2]
      split_ifs <;> linarith
    · simp [h, h2]
      split_ifs <;> linarith

/-- Zero is a fixed point of the decay rule. -/
lemma update_speed_zero : update_speed (0 : α) = 0 := by
  rw [update_speed_eq]
  norm_num

/-- The magnitude after one decay step is the old magnitude less 1/20,
clamped at 0. -/
lemma abs_update_speed (s : α) : |update_speed s| = max (|s| - 1 / 20) 0 := by
  rw [update_speed_eq]
  split_ifs with h1 h2
  · rw [abs_of_nonneg (by linarith : (0 : α) ≤ s - 1 / 20),
      abs_of_pos (by linarith : (0 : α) < s),
      max_eq_left (by linarith : (0 : α) ≤ s - 1 / 20)]
  · rw [abs_of_neg (by linarith : s + 1 / 20 < 0),
      abs_of_neg (by linarith : s < 0),
      max_eq_left (by linarith : (0 : α) ≤ -s - 1 / 20)]
    ring
  · rw [abs_zero, eq_comm, max_eq_right_iff]
    have hb : |s| ≤ 1 / 20 := abs_le.mpr ⟨by linarith, by linarith⟩
    linarith

/-- A decay step never moves a component past zero and never grows it. -/
lemma update_speed_sign (s : α) :
    (0 < s → 0 ≤ update_speed s ∧ update_speed s < s) ∧
    (s < 0 → s < update_speed s ∧ update_speed s ≤ 0) := by
  rw [update_speed_eq]
  constructor <;> intro hs <;> split_ifs <;> exact ⟨by linarith, by linarith⟩

/-- When n is at least 20 times the starting magnitude, n decay steps reach
exactly 0. -/
lemma update_speed_iterate (s : α) (n : ℕ) (h : |s| * 20 ≤ (n : α)) :
    update_speed^[n] s = 0 := by
  induction n generalizing s with
  | zero =>
    simp only [Function.iterate_zero, id_eq]
    have h0 : |s| ≤ 0 := by
      simp only [Nat.cast_zero] at h
      linarith
    exact abs_eq_zero.mp (le_antisymm h0 (abs_nonneg s))
  | succ n ih =>
    rw [Function.iterate_succ_apply]
    apply ih
    rw [abs_update_speed]
    rcases le_total (|s| - 1 / 20) 0 with hm | hm
    · rw [max_eq_right hm, zero_mul]
      exact Nat.cast_nonneg n
    · rw [max_eq_left hm]
      push_cast at h ⊢
      linarith

/-- A sample player used by concrete checks: idle at (400, 300), direction 0,
at rest. -/
def samplePlayer : Player ℚ :=
  ⟨PlayerState.IDLE, 400, 300, 0, 0, 0, 400, 300, 0, 0⟩

/-- A sample session with power 300 on an 800 by 600 screen. -/
def sampleGame : Game ℚ :=
  ⟨300, false, 800, 600⟩

/-- A sample session whose power has been lowered to 0. -/
def sampleGamePowerZero : Game ℚ :=
  ⟨0, false, 800, 600⟩

/-- C1: for every velocity component, one update_speed step lowers the
magnitude by exactly 1/20 clamped at 0 and never crosses zero; n steps with
20 times the magnitude at most n reach exactly 0 (so ceil of the magnitude
over 1/20 steps suffice); and a component starting at 3 is exactly 0 after
60 steps. -/
theorem C1_decay_monotone_terminates (s : ℚ) :
    |update_speed s| = max (|s| - 1 / 20) 0 ∧
    (0 < s → 0 ≤ update_speed s ∧ update_speed s < s) ∧
    (s < 0 → s < update_speed s ∧ update_speed s ≤ 0) ∧
    (∀ n : ℕ, |s| * 20 ≤ (n : ℚ) → update_speed^[n] s = 0) ∧
    update_speed^[60] (3 : ℚ) = 0 :=
  ⟨abs_update_speed s, (update_speed_sign s).1, (update_speed_sign s).2,
    fun n hn => update_speed_iterate s n hn,
    update_speed_iterate 3 60 (by norm_num)⟩

/-- Witness for C1 at the spec scenario value 3 and 60 steps. -/
theorem C1_decay_monotone_terminates_witness :
    (0 < (3 : ℚ) ∧ 0 ≤ update_speed (3 : ℚ) ∧ update_speed (3 : ℚ) < 3) ∧
    (|(3 : ℚ)| * 20 ≤ ((60 : ℕ) : ℚ) ∧ update_speed^[60] (3 : ℚ) = 0) := by
  have h := C1_decay_monotone_terminates 3
  have h1 := h.2.1 (by norm_num)
  have h2 := h.2.2.2.1 60 (by norm_num)
  exact ⟨⟨by norm_num, h1.1, h1.2⟩, ⟨by norm_num, h2⟩⟩

/-- C6: draw overwrites the stored position with position times the scale
factor plus the translation vector, so two draw calls with the same
transform compound it; no other controller field changes. -/
theorem C6_draw_overwrites_position :
    ∀ (st : Player ℚ) (s : ℚ) (t : ℚ × ℚ),
      (draw st s t).pos_x = st.pos_x * s + t.1 ∧
      (draw st s t).pos_y = st.pos_y * s + t.2 ∧
      (draw (draw st s t) s t).pos_x = (st.pos_x * s + t.1) * s + t.1 ∧
      (draw (draw st s t) s t).pos_y = (st.pos_y * s + t.2) * s + t.2 ∧
      (draw st s t).state = st.state ∧
      (draw st s t).speed_x = st.speed_x ∧
      (draw st s t).speed_y = st.speed_y ∧
      (draw st s t).direction = st.direction :=
  fun _ _ _ => ⟨rfl, rfl, rfl, rfl, rfl, rfl, rfl, rfl⟩

/-- C9: a non-KEYDOWN event, or a KEYDOWN of a key other than the five
handled keys, leaves the player and the session untouched and returns 0;
and 1 is returned only for a space KEYDOWN. -/
theorem C9_other_events_noop :
    ∀ (cosd sind : ℤ → ℚ) (maxp : ℤ) (w h : ℕ) (st : Player ℚ) (g : Game ℚ),
      handle_event cosd sind maxp w h st g Event.nonKeydown = (st, g, 0) ∧
      handle_event cosd sind maxp w h st g (Event.keydown Key.other) = (st, g, 0) ∧
      ∀ ev : Event,
        (handle_event cosd sind maxp w h st g ev).2.2 = 1 →
          ev = Event.keydown Key.space := by
  intro cosd sind maxp w h st g
  refine ⟨rfl, by simp [handle_event], ?_⟩
  intro ev hev
  cases ev with
  | nonKeydown => simp [handle_event] at hev
  | keydown k => cases k <;> simp [handle_event] at hev ⊢

/-- Projection of update: the new x speed is the decayed, wall-reflected old
x speed, where the wall test uses the integrated position. -/
lemma update_speed_x_proj (w h rt : ℕ) (lh rh : Bool) (st : Player α) (g : Game α) :
    (update w h rt lh rh st g).1.speed_x =
      update_speed (bounce_x w g (st.pos_x + st.speed_x) st.speed_x) := rfl

/-- Projection of update: the new y speed. -/
lemma update_speed_y_proj (w h rt : ℕ) (lh rh : Bool) (st : Player α) (g : Game α) :
    (update w h rt lh rh st g).1.speed_y =
      update_speed (bounce_y h g (st.pos_y + st.speed_y) st.speed_y) := rfl

/-- Projection of update: the new x position is the integrated one. -/
lemma update_pos_x_proj (w h rt : ℕ) (lh rh : Bool) (st : Player α) (g : Game α) :
    (update w h rt lh rh st g).1.pos_x = st.pos_x + st.speed_x := rfl

/-- Projection of update: the new y position is the integrated one. -/
lemma update_pos_y_proj (w h rt : ℕ) (lh rh : Bool) (st : Player α) (g : Game α) :
    (update w h rt lh rh st g).1.pos_y = st.pos_y + st.speed_y := rfl

/-- Projection of update: the new mode is IDLE exactly on the SHOOTING plus
decayed-to-zero branch of the source, else the old mode. -/
lemma update_state_proj (w h rt : ℕ) (lh rh : Bool) (st : Player α) (g : Game α) :
    (update w h rt lh rh st g).1.state =
      if st.state = PlayerState.SHOOTING ∧
          update_speed (bounce_x w g (st.pos_x + st.speed_x) st.speed_x) = 0 ∧
          update_speed (bounce_y h g (st.pos_y + st.speed_y) st.speed_y) = 0
        then PlayerState.IDLE else st.state := rfl

/-- The transition of update into IDLE, as an equivalence: it happens from a
state that was not already IDLE exactly when that state was SHOOTING and
both new speed components are exactly 0. -/
lemma update_idle_iff (w h rt : ℕ) (lh rh : Bool) (st : Player α) (g : Game α) :
    ((update w h rt lh rh st g).1.state = PlayerState.IDLE ∧
        st.state ≠ PlayerState.IDLE) ↔
      (st.state = PlayerState.SHOOTING ∧
        (update w h rt lh rh st g).1.speed_x = 0 ∧
        (update w h rt lh rh st g).1.speed_y = 0) := by
  rw [update_state_proj, update_speed_x_proj, update_speed_y_proj]
  by_cases hc : st.state = PlayerState.SHOOTING ∧
      update_speed (bounce_x w g (st.pos_x + st.speed_x) st.speed_x) = 0 ∧
      update_speed (bounce_y h g (st.pos_y + st.speed_y) st.speed_y) = 0
  · rw [if_pos hc]
    constructor
    · intro _
      exact hc
    · intro _
      refine ⟨rfl, ?_⟩
      rw [hc.1]
      intro hcon
      exact PlayerState.noConfusion hcon
  · rw [if_neg hc]
    constructor
    · intro hl
      exact absurd hl.1 hl.2
    · intro hr
      exact absurd hr hc

/-- C10: zero is a fixed point of the decay rule, and a player at rest stays
at rest through update with its position unchanged. -/
theorem C10_zero_velocity_fixed_point :
    update_speed (0 : ℚ) = 0 ∧
    ∀ (w h rt : ℕ) (lh rh : Bool) (st : Player ℚ) (g : Game ℚ),
      st.speed_x = 0 → st.speed_y = 0 →
      (update w h rt lh rh st g).1.speed_x = 0 ∧
      (update w h rt lh rh st g).1.speed_y = 0 ∧
      (update w h rt lh rh st g).1.pos_x = st.pos_x ∧
      (update w h rt lh rh st g).1.pos_y = st.pos_y := by
  refine ⟨update_speed_zero, ?_⟩
  intro w h rt lh rh st g hx hy
  rw [update_speed_x_proj, update_speed_y_proj, update_pos_x_proj, update_pos_y_proj,
    hx, hy]
  simp [bounce_x, bounce_y, update_speed_zero]

/-- Witness for C10 at the sample player, which is at rest. -/
theorem C10_zero_velocity_fixed_point_witness :
    (update 50 50 0 false false samplePlayer sampleGame).1.speed_x = 0 ∧
    (update 50 50 0 false false samplePlayer sampleGame).1.speed_y = 0 ∧
    (update 50 50 0 false false samplePlayer sampleGame).1.pos_x = samplePlayer.pos_x ∧
    (update 50 50 0 false false samplePlayer sampleGame).1.pos_y = samplePlayer.pos_y :=
  C10_zero_velocity_fixed_point.2 50 50 0 false false samplePlayer sampleGame rfl rfl

/-- C3: update moves the mode to IDLE from a non-IDLE mode exactly when the
mode was SHOOTING and both new speed components are exactly 0, and no other
operation of the controller produces IDLE: handle_event only ever leaves the
mode or sets SHOOTING, AIMING or POWER, and stop and draw keep it. -/
theorem C3_idle_transition_iff :
    ∀ (w h rt : ℕ) (lh rh : Bool) (st : Player ℚ) (g : Game ℚ)
      (cosd sind : ℤ → ℚ) (maxp : ℤ) (sc : ℚ) (tv : ℚ × ℚ),
      (((update w h rt lh rh st g).1.state = PlayerState.IDLE ∧
          st.state ≠ PlayerState.IDLE) ↔
        (st.state = PlayerState.SHOOTING ∧
          (update w h rt lh rh st g).1.speed_x = 0 ∧
          (update w h rt lh rh st g).1.speed_y = 0)) ∧
      (∀ ev : Event,
        (handle_event cosd sind maxp w h st g ev).1.state = PlayerState.IDLE →
          st.state = PlayerState.IDLE) ∧
      (stop st).state = st.state ∧
      (draw st sc tv).state = st.state := by
  intro w h rt lh rh st g cosd sind maxp sc tv
  refine ⟨update_idle_iff w h rt lh rh st g, ?_, rfl, rfl⟩
  intro ev hev
  cases ev with
  | nonKeydown => exact hev
  | keydown k => cases k <;> revert hev <;> simp [handle_event]

/-- A launched player in flight with a small positive x speed, away from the
walls of the sample session. -/
def launchedPlayer : Player ℚ :=
  ⟨PlayerState.SHOOTING, 400, 300, 0, 1 / 20, 0, 400, 300, 400, 300⟩

/-- Witness for C3: the launched sample player decays to rest in one update
and the mode drops from SHOOTING to IDLE. -/
theorem C3_idle_transition_iff_witness :
    (update 50 50 0 false false launchedPlayer sampleGame).1.state = PlayerState.IDLE ∧
    launchedPlayer.state ≠ PlayerState.IDLE := by
  have h := (C3_idle_transition_iff 50 50 0 false false launchedPlayer sampleGame
    (fun _ => 0) (fun _ => 0) 1000 1 (0, 0)).1
  refine h.mpr ⟨rfl, ?_, ?_⟩ <;>
    norm_num [update_speed_x_proj, update_speed_y_proj, bounce_x, bounce_y,
      update_speed, speedDx, launchedPlayer, sampleGame]

/-- C4: in every update tick whose integrated position lies at or below the
sprite size or at or beyond the screen extent on an axis, the speed
component of that axis is negated exactly once (so a moving component
strictly changes sign there), it is kept whenever the test fails, and the
new speed of update is exactly the decayed reflected component. -/
theorem C4_wall_bounce :
    ∀ (w h : ℕ) (g : Game ℚ) (p v : ℚ),
      ((p ≤ (w : ℚ) ∨ p ≥ g.screen_width) →
        bounce_x w g p v = -v ∧
        (0 < v → bounce_x w g p v < 0) ∧
        (v < 0 → 0 < bounce_x w g p v)) ∧
      (¬(p ≤ (w : ℚ) ∨ p ≥ g.screen_width) → bounce_x w g p v = v) ∧
      ((p ≤ (h : ℚ) ∨ p ≥ g.screen_height) →
        bounce_y h g p v = -v ∧
        (0 < v → bounce_y h g p v < 0) ∧
        (v < 0 → 0 < bounce_y h g p v)) ∧
      (¬(p ≤ (h : ℚ) ∨ p ≥ g.screen_height) → bounce_y h g p v = v) ∧
      ∀ (rt : ℕ) (lh rh : Bool) (st : Player ℚ),
        (update w h rt lh rh st g).1.speed_x =
          update_speed (bounce_x w g (st.pos_x + st.speed_x) st.speed_x) ∧
        (update w h rt lh rh st g).1.speed_y =
          update_speed (bounce_y h g (st.pos_y + st.speed_y) st.speed_y) ∧
        (update w h rt lh rh st g).1.pos_x = st.pos_x + st.speed_x ∧
        (update w h rt lh rh st g).1.pos_y = st.pos_y + st.speed_y := by
  intro w h g p v
  refine ⟨?_, ?_, ?_, ?_, fun rt lh rh st => ⟨rfl, rfl, rfl, rfl⟩⟩
  · intro hc
    rw [bounce_x, if_pos hc]
    exact ⟨rfl, fun hv => by linarith, fun hv => by linarith⟩
  · intro hc
    rw [bounce_x, if_neg hc]
  · intro hc
    rw [bounce_y, if_pos hc]
    exact ⟨rfl, fun hv => by linarith, fun hv => by linarith⟩
  · intro hc
    rw [bounce_y, if_neg hc]

/-- Witness for C4 at position 10 against sprite size 50 with speed 1. -/
theorem C4_wall_bounce_witness :
    bounce_x 50 sampleGame 10 1 = -1 ∧
    bounce_x 50 sampleGame 10 1 < 0 ∧
    bounce_y 50 sampleGame 700 1 = -1 := by
  have h := C4_wall_bounce 50 50 sampleGame 10 1
  have hx := h.1 (Or.inl (by norm_num))
  have h2 := C4_wall_bounce 50 50 sampleGame 700 1
  have hy := h2.2.2.1 (Or.inr (by norm_num [sampleGame]))
  exact ⟨hx.1, hx.2.1 (by norm_num), hy.1⟩

/-- C7: right and left presses move the direction by exactly plus and minus
5, three left presses in sequence move it by minus 15, each repeat tick in
update moves it by 5 toward the held key (left taking precedence), and every
operation keeps the direction a multiple of 5 when it was one; the direction
is an integer by type. -/
theorem C7_direction_steps :
    ∀ (cosd sind : ℤ → ℚ) (maxp : ℤ) (w h : ℕ) (st : Player ℚ) (g : Game ℚ),
      (handle_event cosd sind maxp w h st g (Event.keydown Key.right)).1.direction =
        st.direction + 5 ∧
      (handle_event cosd sind maxp w h st g (Event.keydown Key.left)).1.direction =
        st.direction - 5 ∧
      (handle_event cosd sind maxp w h
          (handle_event cosd sind maxp w h
            (handle_event cosd sind maxp w h st g (Event.keydown Key.left)).1
            g (Event.keydown Key.left)).1
          g (Event.keydown Key.left)).1.direction = st.direction - 15 ∧
      (∀ (rt : ℕ) (rh : Bool), 0 < rt →
        (update w h rt true rh st g).1.direction = st.direction - 5 * (rt : ℤ) ∧
        (update w h rt false true st g).1.direction = st.direction + 5 * (rt : ℤ)) ∧
      (∀ ev : Event, 5 ∣ st.direction →
        (5 : ℤ) ∣ (handle_event cosd sind maxp w h st g ev).1.direction) ∧
      (∀ (rt : ℕ) (lh rh : Bool), 5 ∣ st.direction →
        (5 : ℤ) ∣ (update w h rt lh rh st g).1.direction) := by
  intro cosd sind maxp w h st g
  refine ⟨by simp [handle_event], by simp [handle_event],
    by simp [handle_event]; omega, ?_, ?_, ?_⟩
  · intro rt rh hrt
    constructor <;> simp [update, hrt]
  · intro ev hd
    cases ev with
    | nonKeydown => exact hd
    | keydown k => cases k <;> simp [handle_event] <;> omega
  · intro rt lh rh hd
    have hdir : (update w h rt lh rh st g).1.direction =
        if 0 < rt then
          if lh then st.direction - 5 * (rt : ℤ)
          else if rh then st.direction + 5 * (rt : ℤ)
          else st.direction
        else st.direction := rfl
    rw [hdir]
    split_ifs <;> omega

/-- Witness for C7: three repeat ticks with left held at the sample player,
and divisibility by 5 through a left press. -/
theorem C7_direction_steps_witness :
    (update 50 50 3 true false samplePlayer sampleGame).1.direction =
      samplePlayer.direction - 5 * 3 ∧
    (5 : ℤ) ∣ (handle_event (fun _ => 0) (fun _ => 0) 1000 50 50 samplePlayer sampleGame
      (Event.keydown Key.left)).1.direction := by
  have h := C7_direction_steps (fun _ => 0) (fun _ => 0) 1000 50 50 samplePlayer sampleGame
  exact ⟨(h.2.2.2.1 3 false (by norm_num)).1,
    h.2.2.2.2.1 (Event.keydown Key.left) (dvd_zero 5)⟩

/-- C5: up and down presses set the POWER mode; the only session mutation
they request is set_power_size at power plus or minus exactly 100, gated by
the source bounds tests, and if the observed power was inside [0, maxPower]
it stays inside after the press. -/
theorem C5_power_step_and_clamp :
    ∀ (cosd sind : ℤ → ℚ) (maxp : ℤ) (w h : ℕ) (st : Player ℚ) (g : Game ℚ),
      (handle_event cosd sind maxp w h st g (Event.keydown Key.up)).1.state =
        PlayerState.POWER ∧
      (handle_event cosd sind maxp w h st g (Event.keydown Key.down)).1.state =
        PlayerState.POWER ∧
      (g.power_size < maxp →
        (handle_event cosd sind maxp w h st g (Event.keydown Key.up)).2.1 =
          set_power_size maxp (g.power_size + 100) g) ∧
      (¬g.power_size < maxp →
        (handle_event cosd sind maxp w h st g (Event.keydown Key.up)).2.1 = g) ∧
      (0 < g.power_size →
        (handle_event cosd sind maxp w h st g (Event.keydown Key.down)).2.1 =
          set_power_size maxp (g.power_size - 100) g) ∧
      (¬0 < g.power_size →
        (handle_event cosd sind maxp w h st g (Event.keydown Key.down)).2.1 = g) ∧
      (0 ≤ g.power_size → g.power_size ≤ maxp →
        0 ≤ (handle_event cosd sind maxp w h st g (Event.keydown Key.up)).2.1.power_size ∧
        (handle_event cosd sind maxp w h st g (Event.keydown Key.up)).2.1.power_size ≤ maxp ∧
        0 ≤ (handle_event cosd sind maxp w h st g (Event.keydown Key.down)).2.1.power_size ∧
        (handle_event cosd sind maxp w h st g
          (Event.keydown Key.down)).2.1.power_size ≤ maxp) := by
  intro cosd sind maxp w h st g
  have hu : (handle_event cosd sind maxp w h st g (Event.keydown Key.up)).2.1 =
      if g.power_size < maxp then set_power_size maxp (g.power_size + 100) g else g := by
    simp [handle_event]
  have hd : (handle_event cosd sind maxp w h st g (Event.keydown Key.down)).2.1 =
      if 0 < g.power_size then set_power_size maxp (g.power_size - 100) g else g := by
    simp [handle_event]
  refine ⟨by simp [handle_event], by simp [handle_event], ?_, ?_, ?_, ?_, ?_⟩
  · intro hc
    rw [hu, if_pos hc]
  · intro hc
    rw [hu, if_neg hc]
  · intro hc
    rw [hd, if_pos hc]
  · intro hc
    rw [hd, if_neg hc]
  · intro h0 h1
    rw [hu, hd]
    split_ifs <;> (try simp [set_power_size]) <;> omega

/-- Witness for C5: an up press at power 300 under cap 1000 requests exactly
300 + 100 and the observed power stays inside the range. -/
theorem C5_power_step_and_clamp_witness :
    (handle_event (fun _ => 0) (fun _ => 0) 1000 50 50 samplePlayer sampleGame
      (Event.keydown Key.up)).2.1 = set_power_size 1000 (300 + 100) sampleGame ∧
    0 ≤ (handle_event (fun _ => 0) (fun _ => 0) 1000 50 50 samplePlayer sampleGame
      (Event.keydown Key.up)).2.1.power_size ∧
    (handle_event (fun _ => 0) (fun _ => 0) 1000 50 50 samplePlayer sampleGame
      (Event.keydown Key.up)).2.1.power_size ≤ 1000 := by
  have h := C5_power_step_and_clamp (fun _ => 0) (fun _ => 0) 1000 50 50
    samplePlayer sampleGame
  have hreq := h.2.2.1 (by norm_num [sampleGame])
  have hcl := h.2.2.2.2.2.2 (by norm_num [sampleGame]) (by norm_num [sampleGame])
  exact ⟨hreq, hcl.1, hcl.2.1⟩

/-- Witness for C9: only the space press returns 1, checked at the sample
state. -/
theorem C9_other_events_noop_witness :
    (handle_event (fun _ => 0) (fun _ => 0) 1000 50 50 samplePlayer sampleGame
      (Event.keydown Key.space)).2.2 = 1 ∧
    Event.keydown Key.space = Event.keydown Key.space := by
  have h := C9_other_events_noop (fun _ => 0) (fun _ => 0) 1000 50 50
    samplePlayer sampleGame
  have hp : (handle_event (fun _ => 0) (fun _ => 0) 1000 50 50 samplePlayer sampleGame
      (Event.keydown Key.space)).2.2 = 1 := rfl
  exact ⟨hp, h.2.2 _ hp⟩

/-- The sample player over the reals, for the trigonometric launch claim. -/
def samplePlayerR : Player ℝ :=
  ⟨PlayerState.IDLE, 400, 300, 0, 0, 0, 400, 300, 0, 0⟩

/-- The sample session over the reals with power 300. -/
def sampleGameR : Game ℝ :=
  ⟨300, false, 800, 600⟩

/-- C2: a space press sets SHOOTING, records the launch origin as the
current center, sets the velocity to 0.01 times power times the cosine and
sine of the direction taken in degrees, leaves the session untouched and
returns 1; at direction 0 and power 300 the velocity is exactly (3, 0). -/
theorem C2_space_launch :
    ∀ (maxp : ℤ) (w h : ℕ) (st : Player ℝ) (g : Game ℝ),
      (handle_event (fun d : ℤ => Real.cos ((d : ℝ) * Real.pi / 180))
          (fun d : ℤ => Real.sin ((d : ℝ) * Real.pi / 180)) maxp w h st g
          (Event.keydown Key.space)).1.state = PlayerState.SHOOTING ∧
      (handle_event (fun d : ℤ => Real.cos ((d : ℝ) * Real.pi / 180))
          (fun d : ℤ => Real.sin ((d : ℝ) * Real.pi / 180)) maxp w h st g
          (Event.keydown Key.space)).1.shooting_start_x = (center w h st).1 ∧
      (handle_event (fun d : ℤ => Real.cos ((d : ℝ) * Real.pi / 180))
          (fun d : ℤ => Real.sin ((d : ℝ) * Real.pi / 180)) maxp w h st g
          (Event.keydown Key.space)).1.shooting_start_y = (center w h st).2 ∧
      (handle_event (fun d : ℤ => Real.cos ((d : ℝ) * Real.pi / 180))
          (fun d : ℤ => Real.sin ((d : ℝ) * Real.pi / 180)) maxp w h st g
          (Event.keydown Key.space)).1.speed_x =
        1 / 100 * (g.power_size : ℝ) * Real.cos ((st.direction : ℝ) * Real.pi / 180) ∧
      (handle_event (fun d : ℤ => Real.cos ((d : ℝ) * Real.pi / 180))
          (fun d : ℤ => Real.sin ((d : ℝ) * Real.pi / 180)) maxp w h st g
          (Event.keydown Key.space)).1.speed_y =
        1 / 100 * (g.power_size : ℝ) * Real.sin ((st.direction : ℝ) * Real.pi / 180) ∧
      (handle_event (fun d : ℤ => Real.cos ((d : ℝ) * Real.pi / 180))
          (fun d : ℤ => Real.sin ((d : ℝ) * Real.pi / 180)) maxp w h st g
          (Event.keydown Key.space)).2.1 = g ∧
      (handle_event (fun d : ℤ => Real.cos ((d : ℝ) * Real.pi / 180))
          (fun d : ℤ => Real.sin ((d : ℝ) * Real.pi / 180)) maxp w h st g
          (Event.keydown Key.space)).2.2 = 1 ∧
      (st.direction = 0 → g.power_size = 300 →
        (handle_event (fun d : ℤ => Real.cos ((d : ℝ) * Real.pi / 180))
            (fun d : ℤ => Real.sin ((d : ℝ) * Real.pi / 180)) maxp w h st g
            (Event.keydown Key.space)).1.speed_x = 3 ∧
        (handle_event (fun d : ℤ => Real.cos ((d : ℝ) * Real.pi / 180))
            (fun d : ℤ => Real.sin ((d : ℝ) * Real.pi / 180)) maxp w h st g
            (Event.keydown Key.space)).1.speed_y = 0) := by
  intro maxp w h st g
  refine ⟨rfl, rfl, rfl, rfl, rfl, rfl, rfl, ?_⟩
  intro hdir hpow
  constructor
  · show 1 / 100 * (g.power_size : ℝ) *
        Real.cos ((st.direction : ℝ) * Real.pi / 180) = 3
    rw [hdir, hpow]
    norm_num
  · show 1 / 100 * (g.power_size : ℝ) *
        Real.sin ((st.direction : ℝ) * Real.pi / 180) = 0
    rw [hdir, hpow]
    norm_num

/-- Witness for C2 at the spec scenario: sample player at (400, 300) with
direction 0 and power 300. -/
theorem C2_space_launch_witness :
    (handle_event (fun d : ℤ => Real.cos ((d : ℝ) * Real.pi / 180))
        (fun d : ℤ => Real.sin ((d : ℝ) * Real.pi / 180)) 1000 50 50
        samplePlayerR sampleGameR (Event.keydown Key.space)).1.speed_x = 3 ∧
    (handle_event (fun d : ℤ => Real.cos ((d : ℝ) * Real.pi / 180))
        (fun d : ℤ => Real.sin ((d : ℝ) * Real.pi / 180)) 1000 50 50
        samplePlayerR sampleGameR (Event.keydown Key.space)).1.speed_y = 0 ∧
    (handle_event (fun d : ℤ => Real.cos ((d : ℝ) * Real.pi / 180))
        (fun d : ℤ => Real.sin ((d : ℝ) * Real.pi / 180)) 1000 50 50
        samplePlayerR sampleGameR (Event.keydown Key.space)).1.state =
      PlayerState.SHOOTING := by
  have h := C2_space_launch 1000 50 50 samplePlayerR sampleGameR
  have hc := h.2.2.2.2.2.2.2 rfl rfl
  exact ⟨hc.1, hc.2, h.1⟩

/-- Counterexample for C8 as stated: a space press at power 0 puts the mode
at SHOOTING although the velocity at the start of the flight is exactly
(0, 0), so Launched mode is not equivalent to a nonzero flight-start
velocity. -/
theorem C8_counterexample :
    (handle_event (fun _ => 1) (fun _ => 1) 1000 50 50 samplePlayer
      sampleGamePowerZero (Event.keydown Key.space)).1.state =
        PlayerState.SHOOTING ∧
    (handle_event (fun _ => 1) (fun _ => 1) 1000 50 50 samplePlayer
      sampleGamePowerZero (Event.keydown Key.space)).1.speed_x = 0 ∧
    (handle_event (fun _ => 1) (fun _ => 1) 1000 50 50 samplePlayer
      sampleGamePowerZero (Event.keydown Key.space)).1.speed_y = 0 := by
  refine ⟨rfl, ?_, ?_⟩ <;>
    norm_num [handle_event, samplePlayer, sampleGamePowerZero]

/-- C8 amended: every space press puts the mode at SHOOTING, whatever the
resulting launch velocity, and the mode returns to IDLE only once both
velocity components of the tick are exactly zero, from the SHOOTING mode. -/
theorem C8_launched_amended :
    ∀ (cosd sind : ℤ → ℚ) (maxp : ℤ) (w h rt : ℕ) (lh rh : Bool)
      (st : Player ℚ) (g : Game ℚ),
      (handle_event cosd sind maxp w h st g (Event.keydown Key.space)).1.state =
        PlayerState.SHOOTING ∧
      ((update w h rt lh rh st g).1.state = PlayerState.IDLE →
        st.state ≠ PlayerState.IDLE →
        st.state = PlayerState.SHOOTING ∧
        (update w h rt lh rh st g).1.speed_x = 0 ∧
        (update w h rt lh rh st g).1.speed_y = 0) :=
  fun _ _ _ w h rt lh rh st g =>
    ⟨rfl, fun h1 h2 => (update_idle_iff w h rt lh rh st g).mp ⟨h1, h2⟩⟩

/-- Witness for C8 amended: the launched sample player comes to rest in one
update and drops to IDLE from SHOOTING. -/
theorem C8_launched_amended_witness :
    launchedPlayer.state = PlayerState.SHOOTING ∧
    (update 50 50 0 false false launchedPlayer sampleGame).1.speed_x = 0 ∧
    (update 50 50 0 false false launchedPlayer sampleGame).1.speed_y = 0 := by
  have h := (C8_launched_amended (fun _ => 0) (fun _ => 0) 1000 50 50 0 false false
    launchedPlayer sampleGame).2
  refine h ?_ ?_
  · norm_num [update_state_proj, bounce_x, bounce_y, update_speed, speedDx,
      launchedPlayer, sampleGame]
  · intro hc
    simp [launchedPlayer] at hc

end BiyGame
